import Mathlib

/-!
Verification of the Discogs liquidity client (`src/app.py`).

The program is shallowly embedded: JSON values are modelled by `JsonV`
(Python dicts as association lists with unique keys, numbers as rationals),
the on-disk cache file by `DiskState`, HTTP traffic by explicit per-attempt
outcomes fed to the retry loop, and floating-point scores by real numbers.
External library behaviour that the program calls into (ISO-8601 timestamp
parsing via `datetime.fromisoformat`, `float(str)` conversion) is
parameterized by oracle functions `String → Option ℚ`, so every theorem
holds for all possible behaviours of those library routines.
-/

namespace DiscogsLiquidity

/-- JSON values as produced by Python's `json` module: `None`, `bool`,
numbers (modelled as rationals), strings, lists and dicts (association
lists; dicts produced by the program have unique keys). -/
inductive JsonV where
  | null
  | bool (b : Bool)
  | num (q : ℚ)
  | str (s : String)
  | arr (elems : List JsonV)
  | obj (fields : List (String × JsonV))

/-- Python truthiness of a JSON value (`bool(x)`). -/
def truthy : JsonV → Bool
  | .null => false
  | .bool b => b
  | .num q => decide (q ≠ 0)
  | .str s => decide (s ≠ "")
  | .arr l => !l.isEmpty
  | .obj l => !l.isEmpty

/-- Python truthiness of an optional JSON value (`None` is falsy). -/
def truthyOpt : Option JsonV → Bool
  | none => false
  | some v => truthy v

/-- `d.get(k)` on an association list: first matching key. -/
def getPairs : List (String × JsonV) → String → Option JsonV
  | [], _ => none
  | (k', v') :: rest, k => if k' = k then some v' else getPairs rest k

/-- `d[k] = v` on an association list: replace the first occurrence of the
key in place (Python dicts keep insertion position), else append. -/
def setPairs : List (String × JsonV) → String → JsonV → List (String × JsonV)
  | [], k, v => [(k, v)]
  | (k', v') :: rest, k, v =>
    if k' = k then (k, v) :: rest else (k', v') :: setPairs rest k v

/-- `d.setdefault(k, v)`: leave the dict unchanged when the key is present,
else append the key with the given value. -/
def sdPairs (m : List (String × JsonV)) (k : String) (v : JsonV) :
    List (String × JsonV) :=
  match getPairs m k with
  | some _ => m
  | none => m ++ [(k, v)]

/-- `v.get(k)` when `v` is a dict; `none` for non-dicts or missing keys. -/
def jget (v : JsonV) (k : String) : Option JsonV :=
  match v with
  | .obj m => getPairs m k
  | _ => none

/-- Whether a JSON value is a dict. -/
def isObjB : JsonV → Bool
  | .obj _ => true
  | _ => false

theorem getPairs_append (m l : List (String × JsonV)) (k : String) :
    getPairs (m ++ l) k =
      match getPairs m k with
      | some v => some v
      | none => getPairs l k := by
  induction m with
  | nil => simp [getPairs]
  | cons p rest ih =>
    obtain ⟨k', v'⟩ := p
    by_cases h : k' = k <;> simp [getPairs, h, ih]

theorem getPairs_setPairs_self (m : List (String × JsonV)) (k : String)
    (v : JsonV) : getPairs (setPairs m k v) k = some v := by
  induction m with
  | nil => simp [setPairs, getPairs]
  | cons p rest ih =>
    obtain ⟨k', v'⟩ := p
    by_cases h : k' = k <;> simp [setPairs, getPairs, h, ih]

theorem getPairs_setPairs_other (m : List (String × JsonV)) (k k' : String)
    (v : JsonV) (h : k' ≠ k) :
    getPairs (setPairs m k v) k' = getPairs m k' := by
  induction m with
  | nil => simp [setPairs, getPairs, if_neg (Ne.symm h)]
  | cons p rest ih =>
    obtain ⟨k0, v0⟩ := p
    simp only [setPairs]
    by_cases h0 : k0 = k
    · rw [if_pos h0]
      simp only [getPairs, if_neg (Ne.symm h),
        if_neg (fun hh => Ne.symm h (h0 ▸ hh))]
    · rw [if_neg h0]
      simp only [getPairs]
      by_cases h1 : k0 = k'
      · rw [if_pos h1, if_pos h1]
      · rw [if_neg h1, if_neg h1, ih]

theorem getPairs_sdPairs_self (m : List (String × JsonV)) (k : String)
    (v : JsonV) :
    getPairs (sdPairs m k v) k = some ((getPairs m k).getD v) := by
  unfold sdPairs
  cases h : getPairs m k with
  | some w => simp [h]
  | none => simp [getPairs_append, h, getPairs]

theorem getPairs_sdPairs_other (m : List (String × JsonV)) (k k' : String)
    (v : JsonV) (h : k' ≠ k) :
    getPairs (sdPairs m k v) k' = getPairs m k' := by
  unfold sdPairs
  cases h0 : getPairs m k with
  | some w => simp
  | none =>
    rw [getPairs_append]
    cases h1 : getPairs m k' with
    | some w => simp [h1]
    | none => simp [h1, getPairs, if_neg (Ne.symm h)]

theorem sdPairs_of_mem (m : List (String × JsonV)) (k : String) (v w : JsonV)
    (h : getPairs m k = some w) : sdPairs m k v = m := by
  unfold sdPairs
  rw [h]

/-!
## TTL Cache Store: `load_cache` / `save_cache` (src/app.py lines 73-96)

The on-disk state at the cache path is abstracted by `DiskState`: a missing
file, a file whose open/read raises, a file whose contents `json.load`
rejects, or a successfully parsed JSON document.  `json.dump` followed by
`json.load` is the identity on the documents this program persists, so the
disk stores the abstract value directly.
-/

/-- Possible states of the persisted cache file. -/
inductive DiskState where
  | missing
  | unreadable
  | malformed
  | parsed (v : JsonV)

/-- The freshly initialized cache root
`{"version": 1, "updated_at": now, "releases": {}}`. -/
def freshRoot (nowIso : String) : JsonV :=
  .obj [("version", .num 1), ("updated_at", .str nowIso), ("releases", .obj [])]

/-- `load_cache(cache_path)`: missing file yields a fresh root; any
exception while reading or parsing is caught and yields a fresh root; a
parsed non-dict raises `ValueError` inside the same `try`, again yielding a
fresh root; a parsed dict gets `version` / `updated_at` / `releases`
set-defaulted and a non-dict `releases` replaced by `{}`.  `nowIso` is the
value of `_utc_now_iso()` during the call. -/
def load_cache (nowIso : String) : DiskState → JsonV
  | .missing => freshRoot nowIso
  | .unreadable => freshRoot nowIso
  | .malformed => freshRoot nowIso
  | .parsed (.obj kvs) =>
    let m1 := sdPairs kvs ("version") (.num 1)
    let m2 := sdPairs m1 ("updated_at") (.str nowIso)
    let m3 := sdPairs m2 ("releases") (.obj [])
    match getPairs m3 ("releases") with
    | some (.obj _) => .obj m3
    | _ => .obj (setPairs m3 ("releases") (.obj []))
  | .parsed _ => freshRoot nowIso

/-- `save_cache(cache_path, cache)`: sets `cache["updated_at"]` to the
current time (mutating the caller's root in place) and atomically writes
the result; the returned value is both the post-call in-memory root and
the persisted document.  The program only ever passes dict roots; on a
non-dict Python would raise `TypeError`, which no claim exercises. -/
def save_cache (cache : JsonV) (nowIso : String) : JsonV :=
  match cache with
  | .obj kvs => .obj (setPairs kvs ("updated_at") (.str nowIso))
  | v => v

/-- Structural validity of a cache root: a dict carrying `version`,
`updated_at` and a dict-valued `releases`. -/
def validRootB : JsonV → Bool
  | .obj m =>
    (getPairs m ("version")).isSome && (getPairs m ("updated_at")).isSome &&
      (match getPairs m ("releases") with
       | some (.obj _) => true
       | _ => false)
  | _ => false

/-- C3: for every on-disk state, `load_cache` returns (it is a total
function: every exception is caught), the returned root has `version`,
`updated_at` and a dict-valued `releases` present, and for malformed or
unreadable persisted state the returned root equals the freshly
initialized one, whose `releases` is the empty dict. -/
theorem load_cache_shape_and_recovery (nowIso : String) (d : DiskState) :
    ((jget (load_cache nowIso d) ("version")).isSome = true
      ∧ (jget (load_cache nowIso d) ("updated_at")).isSome = true
      ∧ isObjB ((jget (load_cache nowIso d) ("releases")).getD .null) = true)
    ∧ (load_cache nowIso .malformed = freshRoot nowIso
      ∧ load_cache nowIso .unreadable = freshRoot nowIso
      ∧ load_cache nowIso .missing = freshRoot nowIso
      ∧ jget (freshRoot nowIso) ("releases") = some (.obj [])) := by
  refine ⟨?_, rfl, rfl, rfl, rfl⟩
  cases d with
  | missing => exact ⟨rfl, rfl, rfl⟩
  | unreadable => exact ⟨rfl, rfl, rfl⟩
  | malformed => exact ⟨rfl, rfl, rfl⟩
  | parsed v =>
    cases v with
    | obj kvs =>
      show _ ∧ _ ∧ _
      simp only [load_cache]
      set m1 := sdPairs kvs ("version") (.num 1) with hm1
      set m2 := sdPairs m1 ("updated_at") (.str nowIso) with hm2
      set m3 := sdPairs m2 ("releases") (.obj []) with hm3
      have hver : (getPairs m3 ("version")).isSome = true := by
        rw [hm3, getPairs_sdPairs_other _ _ _ _ (by decide),
          hm2, getPairs_sdPairs_other _ _ _ _ (by decide),
          hm1, getPairs_sdPairs_self]
        simp
      have hupd : (getPairs m3 ("updated_at")).isSome = true := by
        rw [hm3, getPairs_sdPairs_other _ _ _ _ (by decide),
          hm2, getPairs_sdPairs_self]
        simp
      cases hrel : getPairs m3 ("releases") with
      | none =>
        refine ⟨?_, ?_, ?_⟩
        · simpa [jget, getPairs_setPairs_other _ _ _ _ (by decide : ("version") ≠ ("releases"))]
            using hver
        · simpa [jget, getPairs_setPairs_other _ _ _ _ (by decide : ("updated_at") ≠ ("releases"))]
            using hupd
        · simp [jget, getPairs_setPairs_self, isObjB]
      | some rv =>
        cases rv with
        | obj rm => exact ⟨by simpa [jget, hrel] using hver,
            by simpa [jget, hrel] using hupd, by simp [jget, hrel, isObjB]⟩
        | null =>
          refine ⟨?_, ?_, ?_⟩
          · simpa [jget, getPairs_setPairs_other _ _ _ _ (by decide : ("version") ≠ ("releases"))]
              using hver
          · simpa [jget, getPairs_setPairs_other _ _ _ _ (by decide : ("updated_at") ≠ ("releases"))]
              using hupd
          · simp [jget, getPairs_setPairs_self, isObjB]
        | bool b =>
          refine ⟨?_, ?_, ?_⟩
          · simpa [jget, getPairs_setPairs_other _ _ _ _ (by decide : ("version") ≠ ("releases"))]
              using hver
          · simpa [jget, getPairs_setPairs_other _ _ _ _ (by decide : ("updated_at") ≠ ("releases"))]
              using hupd
          · simp [jget, getPairs_setPairs_self, isObjB]
        | num q =>
          refine ⟨?_, ?_, ?_⟩
          · simpa [jget, getPairs_setPairs_other _ _ _ _ (by decide : ("version") ≠ ("releases"))]
              using hver
          · simpa [jget, getPairs_setPairs_other _ _ _ _ (by decide : ("updated_at") ≠ ("releases"))]
              using hupd
          · simp [jget, getPairs_setPairs_self, isObjB]
        | str s =>
          refine ⟨?_, ?_, ?_⟩
          · simpa [jget, getPairs_setPairs_other _ _ _ _ (by decide : ("version") ≠ ("releases"))]
              using hver
          · simpa [jget, getPairs_setPairs_other _ _ _ _ (by decide : ("updated_at") ≠ ("releases"))]
              using hupd
          · simp [jget, getPairs_setPairs_self, isObjB]
        | arr l =>
          refine ⟨?_, ?_, ?_⟩
          · simpa [jget, getPairs_setPairs_other _ _ _ _ (by decide : ("version") ≠ ("releases"))]
              using hver
          · simpa [jget, getPairs_setPairs_other _ _ _ _ (by decide : ("updated_at") ≠ ("releases"))]
              using hupd
          · simp [jget, getPairs_setPairs_self, isObjB]
    | null => exact ⟨rfl, rfl, rfl⟩
    | bool b => exact ⟨rfl, rfl, rfl⟩
    | num q => exact ⟨rfl, rfl, rfl⟩
    | str s => exact ⟨rfl, rfl, rfl⟩
    | arr l => exact ⟨rfl, rfl, rfl⟩

/-- C8: `save_cache` mutates the root in place, setting `updated_at` to the
save time, then persists exactly that document; `load_cache` on a
structurally valid persisted root changes nothing (all three `setdefault`
calls find their keys present and `releases` is already a dict).  So
persist-then-load returns precisely the in-memory root as it stands after
`save_cache`, for any later load time. -/
theorem save_then_load_roundtrip (root : JsonV) (hv : validRootB root = true)
    (ts nowIso2 : String) :
    load_cache nowIso2 (.parsed (save_cache root ts)) = save_cache root ts := by
  cases root with
  | obj m =>
    simp only [validRootB, Bool.and_eq_true] at hv
    obtain ⟨⟨hver, hupd⟩, hrel⟩ := hv
    have hrel' : ∃ rm, getPairs m ("releases") = some (.obj rm) := by
      cases h : getPairs m ("releases") with
      | none => rw [h] at hrel; exact absurd hrel (by simp)
      | some rv =>
        cases rv with
        | obj rm => exact ⟨rm, rfl⟩
        | null => rw [h] at hrel; exact absurd hrel (by simp)
        | bool b => rw [h] at hrel; exact absurd hrel (by simp)
        | num q => rw [h] at hrel; exact absurd hrel (by simp)
        | str s => rw [h] at hrel; exact absurd hrel (by simp)
        | arr l => rw [h] at hrel; exact absurd hrel (by simp)
    obtain ⟨rm, hrm⟩ := hrel'
    have hm' : save_cache (.obj m) ts = .obj (setPairs m ("updated_at") (.str ts)) := rfl
    rw [hm']
    set m' := setPairs m ("updated_at") (.str ts) with hmdef
    have hver' : getPairs m' ("version") = getPairs m ("version") :=
      getPairs_setPairs_other _ _ _ _ (by decide)
    have hupd' : getPairs m' ("updated_at") = some (.str ts) :=
      getPairs_setPairs_self _ _ _
    have hrel2 : getPairs m' ("releases") = some (.obj rm) := by
      rw [hmdef, getPairs_setPairs_other _ _ _ _ (by decide), hrm]
    simp only [load_cache]
    obtain ⟨vv, hvv⟩ := Option.isSome_iff_exists.mp hver
    rw [sdPairs_of_mem m' ("version") (.num 1) vv (by rw [hver', hvv]),
      sdPairs_of_mem m' ("updated_at") (.str nowIso2) (.str ts) hupd',
      sdPairs_of_mem m' ("releases") (.obj []) (.obj rm) hrel2, hrel2]
  | null => exact absurd hv (by simp [validRootB])
  | bool b => exact absurd hv (by simp [validRootB])
  | num q => exact absurd hv (by simp [validRootB])
  | str s => exact absurd hv (by simp [validRootB])
  | arr l => exact absurd hv (by simp [validRootB])

/-- Witness for the round trip at a concrete valid root and save time. -/
theorem save_then_load_roundtrip_witness :
    validRootB (.obj [("version", .num 1), ("updated_at", .str ("A")),
        ("releases", .obj [])]) = true
    ∧ load_cache ("C") (.parsed (save_cache
        (.obj [("version", .num 1), ("updated_at", .str ("A")),
          ("releases", .obj [])]) ("B")))
      = save_cache (.obj [("version", .num 1), ("updated_at", .str ("A")),
          ("releases", .obj [])]) ("B") :=
  ⟨by decide, save_then_load_roundtrip _ (by decide) ("B") ("C")⟩

/-!
## Freshness: `_parse_iso` / `is_fresh` (src/app.py lines 66-70, 107-113)

`datetime.fromisoformat(ts.replace("Z", "+00:00")).timestamp()` is external
library code; it is modelled by an oracle `p : String → Option ℚ` mapping a
string to its epoch timestamp, or `none` when parsing raises.  Every
theorem below quantifies over `p`, so it holds for the real parser.
-/

/-- `_parse_iso(ts)`: the parsed epoch timestamp, or `0.0` when parsing
raises; a non-string argument makes `ts.replace` raise `AttributeError`,
which the same handler turns into `0.0`. -/
def parse_iso (p : String → Option ℚ) : JsonV → ℚ
  | .str s => (p s).getD 0
  | _ => 0

/-- `is_fresh(entry, field, ttl_seconds)`: `meta = entry.get(field, {})`
followed by `meta.get("fetched_at")` — each `.get` raises
`AttributeError` when its receiver is not a dict (a non-dict entry, or a
stored fragment value such as `null`, a string, a list or a number); a
falsy `fetched_at` returns `False`; otherwise the age
`now - _parse_iso(fetched_at)` is compared against the TTL
(`0 <= age < ttl`). -/
def is_fresh (p : String → Option ℚ) (now : ℚ) (entry : JsonV)
    (field : String) (ttl : ℚ) : Except String Bool :=
  match entry with
  | .obj em =>
    match (getPairs em field).getD (.obj []) with
    | .obj mm =>
      let fetched_at := (getPairs mm ("fetched_at")).getD .null
      if truthy fetched_at = false then .ok false
      else
        .ok (decide (0 ≤ now - parse_iso p fetched_at)
          && decide (now - parse_iso p fetched_at < ttl))
    | _ => .error ("AttributeError: object has no attribute get")
  | _ => .error ("AttributeError: object has no attribute get")

/-- C2 (amended): for a dict entry whose fragment is a dict with a
nonempty-string `fetched_at` the parser accepts with timestamp `t`,
`is_fresh` returns true iff `0 ≤ now - t < ttl` (the boundary `age = ttl`
is not fresh); an absent fragment, or a fragment whose `fetched_at` is
missing or falsy, returns false; an unparseable nonempty-string
`fetched_at` — and likewise a truthy non-string one — is treated as epoch
`0.0`, so `is_fresh` then returns `0 ≤ now < ttl`: false for every
`ttl ≤ now`, yet true when `ttl` exceeds the current epoch time; and for
a non-dict entry or a non-dict stored fragment value `is_fresh` raises
`AttributeError` rather than returning. -/
theorem is_fresh_characterization :
    (∀ (p : String → Option ℚ) (now : ℚ) (em mm : List (String × JsonV))
      (field : String) (ttl : ℚ) (s : String) (t : ℚ),
      getPairs em field = some (.obj mm) →
      getPairs mm ("fetched_at") = some (.str s) →
      s ≠ "" → p s = some t →
      (is_fresh p now (.obj em) field ttl = .ok true
        ↔ (0 ≤ now - t ∧ now - t < ttl)))
    ∧ (∀ (p : String → Option ℚ) (now : ℚ) (em : List (String × JsonV))
      (field : String) (ttl : ℚ),
      getPairs em field = none →
      is_fresh p now (.obj em) field ttl = .ok false)
    ∧ (∀ (p : String → Option ℚ) (now : ℚ) (em mm : List (String × JsonV))
      (field : String) (ttl : ℚ),
      getPairs em field = some (.obj mm) →
      truthy ((getPairs mm ("fetched_at")).getD .null) = false →
      is_fresh p now (.obj em) field ttl = .ok false)
    ∧ (∀ (p : String → Option ℚ) (now : ℚ) (em mm : List (String × JsonV))
      (field : String) (ttl : ℚ) (s : String),
      getPairs em field = some (.obj mm) →
      getPairs mm ("fetched_at") = some (.str s) →
      s ≠ "" → p s = none →
      is_fresh p now (.obj em) field ttl
        = .ok (decide (0 ≤ now) && decide (now < ttl)))
    ∧ (∀ (p : String → Option ℚ) (now : ℚ) (em mm : List (String × JsonV))
      (field : String) (ttl : ℚ) (v : JsonV),
      getPairs em field = some (.obj mm) →
      getPairs mm ("fetched_at") = some v →
      truthy v = true → (∀ s, v ≠ .str s) →
      is_fresh p now (.obj em) field ttl
        = .ok (decide (0 ≤ now) && decide (now < ttl)))
    ∧ (∀ (p : String → Option ℚ) (now : ℚ) (em : List (String × JsonV))
      (field : String) (ttl : ℚ) (v : JsonV),
      getPairs em field = some v → isObjB v = false →
      is_fresh p now (.obj em) field ttl
        = .error ("AttributeError: object has no attribute get"))
    ∧ (∀ (p : String → Option ℚ) (now : ℚ) (entry : JsonV)
      (field : String) (ttl : ℚ),
      isObjB entry = false →
      is_fresh p now entry field ttl
        = .error ("AttributeError: object has no attribute get")) := by
  refine ⟨?_, ?_, ?_, ?_, ?_, ?_, ?_⟩
  · intro p now em mm field ttl s t hfrag hfa hs hp
    simp [is_fresh, hfrag, hfa, truthy, hs, parse_iso, hp]
  · intro p now em field ttl hfrag
    simp [is_fresh, hfrag, getPairs, truthy]
  · intro p now em mm field ttl hfrag hfa
    simp [is_fresh, hfrag, hfa]
  · intro p now em mm field ttl s hfrag hfa hs hp
    simp [is_fresh, hfrag, hfa, truthy, hs, parse_iso, hp]
  · intro p now em mm field ttl v hfrag hfa htr hns
    have hpi : parse_iso p v = 0 := by
      cases v with
      | str s => exact absurd rfl (hns s)
      | null => rfl
      | bool b => rfl
      | num q => rfl
      | arr l => rfl
      | obj l => rfl
    simp [is_fresh, hfrag, hfa, htr, hpi]
  · intro p now em field ttl v hfrag hno
    cases v with
    | obj mm => exact absurd hno (by simp [isObjB])
    | null => simp [is_fresh, hfrag]
    | bool b => simp [is_fresh, hfrag]
    | num q => simp [is_fresh, hfrag]
    | str s => simp [is_fresh, hfrag]
    | arr l => simp [is_fresh, hfrag]
  · intro p now entry field ttl hno
    cases entry with
    | obj em => exact absurd hno (by simp [isObjB])
    | null => rfl
    | bool b => rfl
    | num q => rfl
    | str s => rfl
    | arr l => rfl

/-- Counterexample to C2 as stated: a fragment whose `fetched_at` no parser
accepts (the oracle rejects every string, as `datetime.fromisoformat` does
on `"not-a-timestamp"`) is nonetheless reported fresh at `now = 1000` with
`ttl_seconds = 2000`, because `_parse_iso` falls back to epoch `0.0` and
the age `1000` lies inside the TTL window. -/
theorem is_fresh_unparseable_cex :
    is_fresh (fun _ => none) 1000
      (.obj [("marketplace_stats",
        .obj [("fetched_at", .str ("not-a-timestamp"))])])
      ("marketplace_stats") 2000 = .ok true := by
  simp [is_fresh, getPairs, truthy, parse_iso]
  norm_num

/-- Witness: the amended characterization applied at concrete fragments,
parsers, times and TTLs — the parseable-window case, the absent-fragment
case, the falsy-`fetched_at` case and the non-dict error case. -/
theorem is_fresh_characterization_witness :
    (is_fresh (fun s => if s = ("T1") then some 100 else none) 150
      (.obj [("marketplace_stats",
        .obj [("fetched_at", .str ("T1"))])]) ("marketplace_stats") 100
        = .ok true ↔ ((0 : ℚ) ≤ 150 - 100 ∧ (150 : ℚ) - 100 < 100))
    ∧ is_fresh (fun _ => none) 7 (.obj []) ("marketplace_stats") 9 = .ok false
    ∧ is_fresh (fun _ => none) 7
      (.obj [("marketplace_stats", .obj [("fetched_at", .str (""))])])
      ("marketplace_stats") 9 = .ok false
    ∧ is_fresh (fun _ => none) 7 (.obj [("marketplace_stats", .null)])
      ("marketplace_stats") 9
      = .error ("AttributeError: object has no attribute get") :=
  ⟨is_fresh_characterization.1 (fun s => if s = ("T1") then some 100 else none)
      150 _ _ ("marketplace_stats") 100 ("T1") 100 (by rfl) (by rfl)
      (by decide) (by rfl),
    is_fresh_characterization.2.1 (fun _ => none) 7 []
      ("marketplace_stats") 9 (by rfl),
    is_fresh_characterization.2.2.1 (fun _ => none) 7 _ _
      ("marketplace_stats") 9 (by rfl) (by rfl),
    is_fresh_characterization.2.2.2.2.2.1 (fun _ => none) 7 _
      ("marketplace_stats") 9 .null (by rfl) (by rfl)⟩

/-!
## Resilient fetcher: `get_json` (src/app.py lines 123-154)

Each HTTP attempt either raises a transport-level
`requests.exceptions.RequestException` or yields a response with a status
code, optional `Retry-After` header, body text and an optional parsed JSON
body (`none` models `r.json()` raising, which is also a
`RequestException`).  The environment `env` maps the attempt number
(1-based) to its result.  The loop returns the outcome together with the
list of `time.sleep` durations executed inside the classification logic
(the rate-limiter throttle is not counted) and the number of attempts
actually started.

Crucially, `r.raise_for_status()` raises `requests.exceptions.HTTPError`,
a subclass of `RequestException`, so an "other non-success" status
(4xx/5xx outside the special cases) is caught by the transport handler,
slept on and retried — it is not raised terminally on that attempt.
-/

/-- An HTTP response as seen by `get_json`. -/
structure HttpResponse where
  status : ℕ
  retryAfter : Option String
  text : String
  jsonBody : Option JsonV

/-- Result of one GET attempt: a response, or a transport exception. -/
inductive Attempt where
  | resp (r : HttpResponse)
  | exn (msg : String)

/-- How a `get_json` call ends: a returned value (`none` for an allowed
404), an uncaught `ValueError` escaping the loop, or the terminal
`RuntimeError` after exhausting all retries, carrying the last observed
status and diagnostic text. -/
inductive Outcome where
  | ok (v : Option JsonV)
  | valueError (msg : String)
  | failedAfterRetries (lastStatus : Option ℕ) (lastText : Option String)

/-- Python `int(s)` on a string: strip surrounding whitespace, allow one
sign, then require nonempty decimal digits; anything else raises
`ValueError`.  (Underscore digit separators are not modelled; no claim
involves them.) -/
def pyIntParse (s : String) : Option Int :=
  let t :=
    (((s.data.dropWhile Char.isWhitespace).reverse).dropWhile
      Char.isWhitespace).reverse
  let sign : Int :=
    match t with
    | c :: _ => if c = ('-' : Char) then -1 else 1
    | [] => 1
  let core :=
    match t with
    | c :: rest => if c = ('-' : Char) || c = ('+' : Char) then rest else t
    | [] => t
  if core.isEmpty || !core.all Char.isDigit then none
  else
    some (sign *
      ((core.foldl (fun acc c => acc * 10 + (c.toNat - 48)) 0 : ℕ) : Int))

/-- `str(e)` for the `HTTPError` raised by `raise_for_status` (the
reason phrase and URL are not modelled; no claim depends on them). -/
def httpErrorText (status : ℕ) : String :=
  if status < 500 then toString status ++ (" Client Error")
  else toString status ++ (" Server Error")

/-- The retry loop of `get_json`, recursing on the remaining attempt
budget with `a` the 1-based number of the next attempt.  Classification
per attempt: 429 sleeps `int(Retry-After or "60")` seconds and retries
(a non-integer header makes `int()` raise `ValueError`, and a negative
one makes `time.sleep` raise, both escaping the loop uncaught); an
allowed 404 returns `None`; 500/502/503/504 sleep `1.0 * attempt` and
retry; any other 4xx/5xx raises `HTTPError`, which the
`RequestException` handler catches, sleeping `1.0 * attempt` and
retrying; otherwise the JSON body is returned, a JSON decode failure
again being caught and retried.  An exhausted budget raises the terminal
`RuntimeError` with the last status and text. -/
def get_json_loop (env : ℕ → Attempt) (allow404 : Bool) :
    ℕ → ℕ → Option ℕ → Option String → List ℚ → Outcome × List ℚ × ℕ
  | 0, a, ls, lt, sleeps => (.failedAfterRetries ls lt, sleeps.reverse, a - 1)
  | r + 1, a, ls, lt, sleeps =>
    match env a with
    | .exn msg =>
      get_json_loop env allow404 r (a + 1) ls (some msg) ((a : ℚ) :: sleeps)
    | .resp re =>
      let ls' := some re.status
      let lt' := some (re.text.take 300)
      if re.status = 429 then
        match pyIntParse (re.retryAfter.getD ("60")) with
        | some w =>
          if w < 0 then
            (.valueError ("sleep length must be non-negative"),
              sleeps.reverse, a)
          else
            get_json_loop env allow404 r (a + 1) ls' lt' ((w : ℚ) :: sleeps)
        | none =>
          (.valueError ("invalid literal for int() with base 10: "
            ++ re.retryAfter.getD ("60")), sleeps.reverse, a)
      else if allow404 = true ∧ re.status = 404 then
        (.ok none, sleeps.reverse, a)
      else if re.status = 500 ∨ re.status = 502 ∨ re.status = 503
          ∨ re.status = 504 then
        get_json_loop env allow404 r (a + 1) ls' lt' ((a : ℚ) :: sleeps)
      else if 400 ≤ re.status ∧ re.status < 600 then
        get_json_loop env allow404 r (a + 1) ls'
          (some (httpErrorText re.status)) ((a : ℚ) :: sleeps)
      else
        match re.jsonBody with
        | some v => (.ok (some v), sleeps.reverse, a)
        | none =>
          get_json_loop env allow404 r (a + 1) ls'
            (some ("JSONDecodeError")) ((a : ℚ) :: sleeps)

/-- `get_json(url, params, retries, allow_404)`: run the loop with the
full retry budget (default 5), starting at attempt 1 with no last status
or text. -/
def get_json (env : ℕ → Attempt) (allow404 : Bool) (retries : ℕ) :
    Outcome × List ℚ × ℕ :=
  get_json_loop env allow404 retries 1 none none []

theorem get_json_loop_step_other (env : ℕ → Attempt) (allow404 : Bool)
    (r a : ℕ) (ls : Option ℕ) (lt : Option String) (sleeps : List ℚ)
    (re : HttpResponse) (s : ℕ)
    (h400 : 400 ≤ s) (h600 : s < 600) (h429 : s ≠ 429)
    (h500 : s ≠ 500) (h502 : s ≠ 502) (h503 : s ≠ 503) (h504 : s ≠ 504)
    (h404 : allow404 = true → s ≠ 404)
    (henv : env a = .resp re) (hst : re.status = s) :
    get_json_loop env allow404 (r + 1) a ls lt sleeps =
      get_json_loop env allow404 r (a + 1) (some s)
        (some (httpErrorText s)) ((a : ℚ) :: sleeps) := by
  simp only [get_json_loop, henv, hst]
  rw [if_neg h429, if_neg (fun hh => h404 hh.1 hh.2),
    if_neg (by omega : ¬(s = 500 ∨ s = 502 ∨ s = 503 ∨ s = 504)),
    if_pos ⟨h400, h600⟩]

/-- C1 (amended): a response whose status is not a success, not 429, not
500/502/503/504 and not a permitted 404 makes `raise_for_status` raise
`requests.exceptions.HTTPError` — a subclass of `RequestException` — so
the transport handler catches it, sleeps `1.0 * attempt` seconds and
retries; only after all 5 attempts are exhausted does `get_json` raise the
terminal fetch failure, which carries the last observed status and
diagnostic text.  No immediate abort happens on the first such
response. -/
theorem get_json_unrecoverable_status_retries_then_fails
    (s : ℕ) (allow404 : Bool) (env : ℕ → Attempt) (re : HttpResponse)
    (h400 : 400 ≤ s) (h600 : s < 600) (h429 : s ≠ 429)
    (h500 : s ≠ 500) (h502 : s ≠ 502) (h503 : s ≠ 503) (h504 : s ≠ 504)
    (h404 : allow404 = true → s ≠ 404)
    (henv : ∀ a, env a = .resp re) (hst : re.status = s) :
    get_json env allow404 5
      = (.failedAfterRetries (some s) (some (httpErrorText s)),
          [(1 : ℚ), 2, 3, 4, 5], 5) := by
  unfold get_json
  rw [get_json_loop_step_other env allow404 4 1 _ _ _ re s h400 h600 h429
      h500 h502 h503 h504 h404 (henv 1) hst,
    get_json_loop_step_other env allow404 3 2 _ _ _ re s h400 h600 h429
      h500 h502 h503 h504 h404 (henv 2) hst,
    get_json_loop_step_other env allow404 2 3 _ _ _ re s h400 h600 h429
      h500 h502 h503 h504 h404 (henv 3) hst,
    get_json_loop_step_other env allow404 1 4 _ _ _ re s h400 h600 h429
      h500 h502 h503 h504 h404 (henv 4) hst,
    get_json_loop_step_other env allow404 0 5 _ _ _ re s h400 h600 h429
      h500 h502 h503 h504 h404 (henv 5) hst]
  simp only [get_json_loop, List.reverse_cons, List.reverse_nil]
  norm_num

/-- Witness: a constant-403 environment exhausts all five attempts,
sleeping 1,2,3,4,5 seconds, and only then reports the terminal failure
with last status 403. -/
theorem get_json_unrecoverable_witness :
    get_json (fun _ => .resp ⟨403, none, ("Forbidden"), none⟩) false 5
      = (.failedAfterRetries (some 403) (some (httpErrorText 403)),
          [(1 : ℚ), 2, 3, 4, 5], 5) :=
  get_json_unrecoverable_status_retries_then_fails 403 false _ _
    (by norm_num) (by norm_num) (by norm_num) (by norm_num) (by norm_num)
    (by norm_num) (by norm_num) (fun _ => by norm_num)
    (fun _ => rfl) rfl

/-- First attempt yields 403, second a JSON success. -/
def envRetryThenOk : ℕ → Attempt := fun a =>
  if a = 1 then .resp ⟨403, none, ("Forbidden"), none⟩
  else .resp ⟨200, none, ("OK"), some (.obj [])⟩

/-- Counterexample to C1 as stated: on a 403 — a non-success status that
is not 429, not 5xx-retryable and not an allowed 404 — `get_json` does
not raise a terminal fetch failure on that attempt: it sleeps 1 second,
retries, and returns the second attempt's JSON body, having used two
attempts. -/
theorem get_json_immediate_terminal_cex :
    get_json envRetryThenOk false 5 = (.ok (some (.obj [])), [(1 : ℚ)], 2)
    ∧ (∀ ls lt, (get_json envRetryThenOk false 5).1
        ≠ Outcome.failedAfterRetries ls lt)
    ∧ (get_json envRetryThenOk false 5).2.2 ≠ 1 := by
  have h1 : get_json envRetryThenOk false 5
      = (.ok (some (.obj [])), [((1 : ℕ) : ℚ)], 2) := rfl
  refine ⟨?_, ?_, ?_⟩
  · rw [h1]; norm_num
  · intro ls lt h
    rw [h1] at h
    exact Outcome.noConfusion h
  · rw [h1]; norm_num

/-- A 429 whose `Retry-After` header is an HTTP-date rather than a decimal
integer. -/
def envBadRetryAfter : ℕ → Attempt := fun _ =>
  .resp ⟨429, some ("Wed, 21 Oct 2015 07:28:00 GMT"), ("rate limited"), none⟩

/-- C10: on a 429 whose `Retry-After` header is an HTTP-date,
`int(r.headers.get("Retry-After", "60"))` raises `ValueError`, which no
handler in the loop catches: the call ends on the first attempt with that
uncaught exception, executing no classification sleep, starting no further
attempt, and producing neither a returned value nor the terminal
`RuntimeError` with last status and text. -/
theorem get_json_retry_after_valueerror :
    get_json envBadRetryAfter true 5
      = (.valueError ("invalid literal for int() with base 10: "
          ++ ("Wed, 21 Oct 2015 07:28:00 GMT")), [], 1)
    ∧ (∀ ls lt, (get_json envBadRetryAfter true 5).1
        ≠ Outcome.failedAfterRetries ls lt)
    ∧ (∀ v, (get_json envBadRetryAfter true 5).1 ≠ Outcome.ok v) := by
  have h1 : get_json envBadRetryAfter true 5
      = (.valueError ("invalid literal for int() with base 10: "
          ++ ("Wed, 21 Oct 2015 07:28:00 GMT")), [], 1) := rfl
  refine ⟨h1, ?_, ?_⟩
  · intro ls lt h
    rw [h1] at h
    exact Outcome.noConfusion h
  · intro v h
    rw [h1] at h
    exact Outcome.noConfusion h

/-!
## Liquidity scorer: `safe_num` / `liquidity_score` (src/app.py 157-163, 321-339)

Floating-point values are modelled as exact reals; `float(str)` conversion
is the oracle `fs : String → Option ℚ` (`none` when `float` raises).  The
theorems restrict to the value ranges on which Python's `math.log1p` /
`math.log` return (nonnegative counts), which covers every value the
upstream count fields can take.
-/

/-- `safe_num(x, default)`: `None` (or a missing key) yields the default;
numbers pass through; `float(True)` is `1.0`; strings go through
`float(str)`; `float` of a list or dict raises `TypeError`, which the
handler turns into the default. -/
def safe_num (fs : String → Option ℚ) (x : Option JsonV) (default : ℚ) : ℚ :=
  match x with
  | none => default
  | some .null => default
  | some (.bool b) => if b then 1 else 0
  | some (.num q) => q
  | some (.str s) => (fs s).getD default
  | some (.arr _) => default
  | some (.obj _) => default

/-- Python `round(x, 4)`: round to 4 decimal places.  Mathlib's `round`
rounds half up while Python rounds half to even; the two differ only when
`x * 10^4` is an exact half-integer, which no claim's input reaches. -/
noncomputable def round4 (x : ℝ) : ℝ := ((round (x * 10000) : ℤ) : ℝ) / 10000

/-- `row.get("blocked_from_sale") is True`: exactly the boolean `True`. -/
def isBlockedRow (row : JsonV) : Bool :=
  match jget row ("blocked_from_sale") with
  | some (.bool true) => true
  | _ => false

/-- The accumulated `score` of `liquidity_score` before the zero-supply
penalty: `2.2 * math.log1p(want) + 1.2 * math.log1p(num_for_sale) +
3.0 * math.log(demand_ratio)`, where the source's locals are
`num_for_sale = safe_num(row.get("num_for_sale"))`,
`want = safe_num(row.get("want_count"))`,
`have = safe_num(row.get("have_count"))` and
`demand_ratio = (want + 1) / (have + 10)`. -/
noncomputable def liquidity_base (fs : String → Option ℚ) (row : JsonV) : ℝ :=
  2.2 * Real.log (1 + (safe_num fs (jget row ("want_count")) 0 : ℝ))
    + 1.2 * Real.log (1 + (safe_num fs (jget row ("num_for_sale")) 0 : ℝ))
    + 3.0 * Real.log (((safe_num fs (jget row ("want_count")) 0 : ℝ) + 1)
        / ((safe_num fs (jget row ("have_count")) 0 : ℝ) + 10))

/-- `liquidity_score(row)`: the sentinel `-1e9` for a blocked row, else
the accumulated score, minus `2.0` when `num_for_sale == 0`, rounded to 4
decimal places; counts are coerced through `safe_num` with default
`0.0`. -/
noncomputable def liquidity_score (fs : String → Option ℚ) (row : JsonV) : ℝ :=
  if isBlockedRow row = true then -(10 ^ 9 : ℝ)
  else
    round4 (if safe_num fs (jget row ("num_for_sale")) 0 = 0 then
        liquidity_base fs row - 2.0
      else liquidity_base fs row)

theorem round4_ge (x : ℝ) : x - 1 ≤ round4 x := by
  have h := abs_sub_round (x * 10000)
  rw [abs_le] at h
  have h1 : x * 10000 - 1 / 2 ≤ ((round (x * 10000) : ℤ) : ℝ) := by
    linarith [h.1]
  unfold round4
  linarith

/-- C4: a merged record whose `blocked_from_sale` is exactly `True` scores
the sentinel `-1e9` whatever its other fields hold; and every non-blocked
record whose coerced counts are nonnegative with `have_count` at most
`2^1024` (beyond the largest IEEE double, so this covers every value a
record's float fields can carry) scores strictly above the sentinel, so
blocked items always sort last. -/
theorem liquidity_score_blocked_sentinel :
    (∀ (fs : String → Option ℚ) (row : JsonV),
      jget row ("blocked_from_sale") = some (.bool true) →
      liquidity_score fs row = -(10 ^ 9 : ℝ))
    ∧ (∀ (fs : String → Option ℚ) (row : JsonV),
      isBlockedRow row = false →
      0 ≤ safe_num fs (jget row ("want_count")) 0 →
      0 ≤ safe_num fs (jget row ("num_for_sale")) 0 →
      0 ≤ safe_num fs (jget row ("have_count")) 0 →
      safe_num fs (jget row ("have_count")) 0 ≤ 2 ^ 1024 →
      -(10 ^ 9 : ℝ) < liquidity_score fs row) := by
  constructor
  · intro fs row hb
    simp [liquidity_score, isBlockedRow, hb]
  · intro fs row hb hw hn hh hhub
    rw [liquidity_score, if_neg (by rw [hb]; exact Bool.false_ne_true)]
    set wq := safe_num fs (jget row ("want_count")) 0 with hwq
    set nq := safe_num fs (jget row ("num_for_sale")) 0 with hnq
    set hq := safe_num fs (jget row ("have_count")) 0 with hhq
    have hwR : (0 : ℝ) ≤ (wq : ℝ) := by exact_mod_cast hw
    have hnR : (0 : ℝ) ≤ (nq : ℝ) := by exact_mod_cast hn
    have hhR : (0 : ℝ) ≤ (hq : ℝ) := by exact_mod_cast hh
    have hhubR : (hq : ℝ) ≤ 2 ^ 1024 := by exact_mod_cast hhub
    have hterm1 : (0 : ℝ) ≤ 2.2 * Real.log (1 + (wq : ℝ)) := by
      have := Real.log_nonneg (by linarith : (1 : ℝ) ≤ 1 + (wq : ℝ))
      linarith
    have hterm2 : (0 : ℝ) ≤ 1.2 * Real.log (1 + (nq : ℝ)) := by
      have := Real.log_nonneg (by linarith : (1 : ℝ) ≤ 1 + (nq : ℝ))
      linarith
    have hd : (0 : ℝ) < (hq : ℝ) + 10 := by linarith
    have hratio : (((hq : ℝ) + 10)⁻¹ : ℝ) ≤ ((wq : ℝ) + 1) / ((hq : ℝ) + 10) := by
      rw [inv_eq_one_div, div_le_div_iff hd hd]
      nlinarith
    have hub2 : ((hq : ℝ) + 10) ≤ (2 : ℝ) ^ 1025 := by
      have h1 : ((10 : ℝ)) ≤ (2 : ℝ) ^ 1024 := by
        calc ((10 : ℝ)) ≤ (2 : ℝ) ^ 4 := by norm_num
          _ ≤ (2 : ℝ) ^ 1024 := pow_le_pow_right (by norm_num) (by norm_num)
      have h2 : ((2 : ℝ) ^ 1025) = (2 : ℝ) ^ 1024 * 2 := by
        rw [← pow_succ]
      linarith
    have hlog3 : -(1025 * Real.log 2)
        ≤ Real.log (((wq : ℝ) + 1) / ((hq : ℝ) + 10)) := by
      have hmono := Real.log_le_log (inv_pos.mpr hd) hratio
      have hinv : Real.log (((hq : ℝ) + 10)⁻¹ : ℝ)
          = -Real.log ((hq : ℝ) + 10) := Real.log_inv _
      have hle : Real.log ((hq : ℝ) + 10) ≤ Real.log ((2 : ℝ) ^ 1025) :=
        Real.log_le_log hd hub2
      have hpow : Real.log ((2 : ℝ) ^ 1025) = 1025 * Real.log 2 := by
        rw [Real.log_pow]; push_cast; ring
      rw [hpow] at hle
      rw [hinv] at hmono
      linarith
    have hlog2ub : Real.log 2 < 0.6931471808 := Real.log_two_lt_d9
    have hbase : -(2200 : ℝ) ≤ liquidity_base fs row := by
      rw [liquidity_base, ← hwq, ← hnq, ← hhq]
      nlinarith
    by_cases hz : nq = 0
    · rw [if_pos hz]
      have := round4_ge (liquidity_base fs row - 2.0)
      nlinarith
    · rw [if_neg hz]
      have := round4_ge (liquidity_base fs row)
      nlinarith

/-- Witness: a blocked record scores exactly `-1e9`; the all-zero
non-blocked record scores strictly above it. -/
theorem liquidity_score_blocked_sentinel_witness :
    liquidity_score (fun _ => none)
      (.obj [("blocked_from_sale", .bool true), ("want_count", .num 3)])
      = -(10 ^ 9 : ℝ)
    ∧ -(10 ^ 9 : ℝ) < liquidity_score (fun _ => none)
      (.obj [("want_count", .num 0), ("have_count", .num 0),
        ("num_for_sale", .num 0), ("blocked_from_sale", .bool false)]) :=
  ⟨liquidity_score_blocked_sentinel.1 (fun _ => none) _ (by rfl),
    liquidity_score_blocked_sentinel.2 (fun _ => none) _ (by rfl)
      (by norm_num [jget, getPairs, safe_num])
      (by norm_num [jget, getPairs, safe_num])
      (by norm_num [jget, getPairs, safe_num])
      (by norm_num [jget, getPairs, safe_num])⟩

theorem liquidity_score_unblocked (fs : String → Option ℚ) (row : JsonV)
    (hb : isBlockedRow row = false) :
    liquidity_score fs row =
      round4 (liquidity_base fs row
        + (if safe_num fs (jget row ("num_for_sale")) 0 = 0 then
            (-2 : ℝ) else 0)) := by
  rw [liquidity_score, if_neg (by rw [hb]; exact Bool.false_ne_true)]
  by_cases hz : safe_num fs (jget row ("num_for_sale")) 0 = 0
  · rw [if_pos hz, if_pos hz]
    congr 1
    ring
  · rw [if_neg hz, if_neg hz]
    congr 1
    ring

/-- Bounds on `3 * ln 10 = ln 1000` tight enough to settle the rounding of
the example score: obtained from `1000 = 2^10 * (1 - 3/128)` together with
Mathlib's nine-digit bounds on `ln 2` and the degree-3 Taylor estimate of
`ln (1 - 3/128)`. -/
theorem three_log_ten_bounds :
    (6.90775 : ℝ) < 3 * Real.log 10 ∧ 3 * Real.log 10 < (6.90785 : ℝ) := by
  have hx : |(3 / 128 : ℝ)| < 1 := by
    rw [abs_of_nonneg] <;> norm_num
  have taylor := Real.abs_log_sub_add_sum_range_le hx 3
  rw [abs_of_nonneg (by norm_num : (0 : ℝ) ≤ 3 / 128)] at taylor
  rw [Finset.sum_range_succ, Finset.sum_range_succ, Finset.sum_range_succ,
    Finset.sum_range_zero] at taylor
  rw [abs_le] at taylor
  obtain ⟨t1, t2⟩ := taylor
  norm_num at t1 t2
  have hrel : 3 * Real.log 10 = 10 * Real.log 2 + Real.log (1 - 3 / 128 : ℝ) := by
    have h10 : ((1000 : ℝ)) = 2 ^ 10 * (1 - 3 / 128 : ℝ) := by norm_num
    have hl : Real.log 1000
        = Real.log ((2 : ℝ) ^ 10) + Real.log (1 - 3 / 128 : ℝ) := by
      rw [← Real.log_mul (by positivity) (by norm_num), ← h10]
    have hl2 : Real.log ((2 : ℝ) ^ 10) = 10 * Real.log 2 := by
      rw [Real.log_pow]; push_cast; ring
    have hl3 : Real.log (1000 : ℝ) = 3 * Real.log 10 := by
      rw [show (1000 : ℝ) = 10 ^ 3 by norm_num, Real.log_pow]
      push_cast; ring
    rw [hl2] at hl
    rw [← hl3, hl]
  have hg := Real.log_two_gt_d9
  have hlt := Real.log_two_lt_d9
  constructor
  · rw [hrel]; linarith
  · rw [hrel]; linarith

/-- The all-zero non-blocked merged record of the spec's worked example. -/
def zeroRow : JsonV :=
  .obj [("want_count", .num 0), ("have_count", .num 0),
    ("num_for_sale", .num 0), ("blocked_from_sale", .bool false)]

/-- C9: every non-blocked merged record scores
`round(2.2*ln(1+want) + 1.2*ln(1+num_for_sale) +
3.0*ln((want+1)/(have+10)) + (num_for_sale == 0 ? -2 : 0), 4)` with counts
coerced through `safe_num`; absent (`None` / missing key) and unparseable
values coerce to `0.0`; and the all-zero example record scores exactly
`-8.9078`. -/
theorem liquidity_score_formula_and_example :
    (∀ (fs : String → Option ℚ) (row : JsonV),
      isBlockedRow row = false →
      liquidity_score fs row =
        round4 (2.2 * Real.log (1 + (safe_num fs (jget row ("want_count")) 0 : ℝ))
          + 1.2 * Real.log (1 + (safe_num fs (jget row ("num_for_sale")) 0 : ℝ))
          + 3.0 * Real.log (((safe_num fs (jget row ("want_count")) 0 : ℝ) + 1)
              / ((safe_num fs (jget row ("have_count")) 0 : ℝ) + 10))
          + (if safe_num fs (jget row ("num_for_sale")) 0 = 0 then
              (-2 : ℝ) else 0)))
    ∧ (∀ (fs : String → Option ℚ) (s : String),
      safe_num fs none 0 = 0 ∧ safe_num fs (some .null) 0 = 0
        ∧ (fs s = none → safe_num fs (some (.str s)) 0 = 0))
    ∧ liquidity_score (fun _ => none) zeroRow = -8.9078 := by
  refine ⟨?_, ?_, ?_⟩
  · intro fs row hb
    rw [liquidity_score_unblocked fs row hb, liquidity_base]
  · intro fs s
    refine ⟨rfl, rfl, fun h => ?_⟩
    simp [safe_num, h]
  · have hw0 : safe_num (fun _ => none) (jget zeroRow ("want_count")) 0 = 0 := rfl
    have hn0 : safe_num (fun _ => none) (jget zeroRow ("num_for_sale")) 0 = 0 := rfl
    have hh0 : safe_num (fun _ => none) (jget zeroRow ("have_count")) 0 = 0 := rfl
    have hval : liquidity_score (fun _ => none) zeroRow
        = round4 (-(3 * Real.log 10) - 2) := by
      rw [liquidity_score_unblocked _ _ (by rfl)]
      rw [if_pos hn0]
      congr 1
      rw [liquidity_base, hw0, hn0, hh0]
      push_cast
      rw [show ((0 : ℝ) + 1) / ((0 : ℝ) + 10) = (10 : ℝ)⁻¹ by norm_num,
        Real.log_inv]
      norm_num [Real.log_one]
      ring
    rw [hval]
    have hb := three_log_ten_bounds
    have hr : round ((-(3 * Real.log 10) - 2) * 10000) = -89078 := by
      rw [round_eq, Int.floor_eq_iff]
      constructor
      · push_cast
        nlinarith [hb.2]
      · push_cast
        nlinarith [hb.1]
    rw [round4, hr]
    norm_num

/-- Witness: the formula conjunct applied at the example record, together
with the coercion conjunct at a concrete unparseable string. -/
theorem liquidity_score_formula_witness :
    liquidity_score (fun _ => none) zeroRow =
      round4 (2.2 * Real.log (1 + (safe_num (fun _ => none) (jget zeroRow ("want_count")) 0 : ℝ))
        + 1.2 * Real.log (1 + (safe_num (fun _ => none) (jget zeroRow ("num_for_sale")) 0 : ℝ))
        + 3.0 * Real.log (((safe_num (fun _ => none) (jget zeroRow ("want_count")) 0 : ℝ) + 1)
            / ((safe_num (fun _ => none) (jget zeroRow ("have_count")) 0 : ℝ) + 10))
        + (if safe_num (fun _ => none) (jget zeroRow ("num_for_sale")) 0 = 0 then
            (-2 : ℝ) else 0))
    ∧ safe_num (fun _ => none) (some (.str ("not-a-number"))) 0 = 0 :=
  ⟨liquidity_score_formula_and_example.1 (fun _ => none) zeroRow (by rfl),
    (liquidity_score_formula_and_example.2.1 (fun _ => none)
      ("not-a-number")).2.2 rfl⟩

/-!
## Enrichment fetchers (src/app.py lines 276-315)

The network payload delivered by `get_json` is passed in as `net`
(`none` models the allowed-404 `None`).  Python statements that can raise
(`float(...)`, `.get` on a non-dict, direct `[...]` indexing) are modelled
in `Except`, with the error string naming the exception.
-/

/-- The sentinel fragment stored when marketplace stats return no data. -/
def marketplaceSentinel : JsonV :=
  .obj [("num_for_sale", .null), ("blocked_from_sale", .null),
    ("lowest_price", .null)]

/-- Python `float(x)`: numbers pass through, booleans become 0/1, strings
go through the `float(str)` oracle, everything else raises. -/
def pyFloat (fs : String → Option ℚ) : JsonV → Except String ℚ
  | .num q => .ok q
  | .bool b => .ok (if b then 1 else 0)
  | .str s =>
    match fs s with
    | some q => .ok q
    | none => .error ("ValueError: could not convert string to float")
  | .null => .error ("TypeError: float() argument must not be NoneType")
  | .arr _ => .error ("TypeError: float() argument")
  | .obj _ => .error ("TypeError: float() argument")

/-- Normalization of the marketplace-stats payload: falsy/no data yields
the sentinel; otherwise `num_for_sale` and `blocked_from_sale` are
extracted verbatim (`None` when missing), and
`None if lowest is None else float(lowest.get("value"))` computes the
lowest price — raising when `lowest` is neither `None` nor a dict with a
floatable `value`. -/
def normalize_marketplace (fs : String → Option ℚ) (net : Option JsonV) :
    Except String JsonV :=
  if truthyOpt net = false then .ok marketplaceSentinel
  else
    match net with
    | some (.obj m) =>
      match (getPairs m ("lowest_price")).getD .null with
      | .null =>
        .ok (.obj [("num_for_sale", (getPairs m ("num_for_sale")).getD .null),
          ("blocked_from_sale", (getPairs m ("blocked_from_sale")).getD .null),
          ("lowest_price", .null)])
      | .obj lm =>
        match pyFloat fs ((getPairs lm ("value")).getD .null) with
        | .ok q =>
          .ok (.obj [("num_for_sale", (getPairs m ("num_for_sale")).getD .null),
            ("blocked_from_sale", (getPairs m ("blocked_from_sale")).getD .null),
            ("lowest_price", .num q)])
        | .error e => .error e
      | _ => .error ("AttributeError: object has no attribute get")
    | some _ => .error ("AttributeError: object has no attribute get")
    | none => .ok marketplaceSentinel

/-- Normalization of the release-details payload:
`comm = (data.get("community") or {})`, then `want`/`have` are extracted
(`None` when missing). -/
def normalize_release_details (net : JsonV) : Except String JsonV :=
  match net with
  | .obj m =>
    match (if truthy ((getPairs m ("community")).getD .null) then
        (getPairs m ("community")).getD .null else .obj []) with
    | .obj cm =>
      .ok (.obj [("want_count", (getPairs cm ("want")).getD .null),
        ("have_count", (getPairs cm ("have")).getD .null)])
    | _ => .error ("AttributeError: object has no attribute get")
  | _ => .error ("AttributeError: object has no attribute get")

/-- `cache_get_release(cache, release_id)`:
`cache["releases"].get(str(release_id), {})`. -/
def cache_get_release (cache : JsonV) (rid : ℕ) : Except String JsonV :=
  match jget cache ("releases") with
  | some (.obj m) => .ok ((getPairs m (toString rid)).getD (.obj []))
  | some _ => .error ("AttributeError: object has no attribute get")
  | none => .error ("KeyError: releases")

/-- `cache_put_release(cache, release_id, entry)`:
`cache["releases"][str(release_id)] = entry`. -/
def cache_put_release (cache : JsonV) (rid : ℕ) (entry : JsonV) :
    Except String JsonV :=
  match cache with
  | .obj cm =>
    match getPairs cm ("releases") with
    | some (.obj m) =>
      .ok (.obj (setPairs cm ("releases")
        (.obj (setPairs m (toString rid) entry))))
    | some _ => .error ("TypeError: item assignment")
    | none => .error ("KeyError: releases")
  | _ => .error ("TypeError: item assignment")

/-- `fetch_marketplace_stats_cached(release_id, cache, marketplace_ttl)`:
on a fresh fragment return its stored `data` with `hit = True` and no
network call; otherwise issue one `get_json` call (its payload is `net`),
normalize, stamp `fetched_at`, store the fragment and return the
normalized data with `hit = False`.  The last component counts network
calls. -/
def fetch_marketplace_stats_cached (fs p : String → Option ℚ) (now : ℚ)
    (nowIso : String) (rid : ℕ) (cache : JsonV) (ttl : ℚ)
    (net : Option JsonV) : Except String (JsonV × Bool × JsonV × ℕ) :=
  match cache_get_release cache rid with
  | .error e => .error e
  | .ok entry =>
    match is_fresh p now entry ("marketplace_stats") ttl with
    | .error e => .error e
    | .ok true =>
      match jget entry ("marketplace_stats") with
      | some frag =>
        match jget frag ("data") with
        | some d => .ok (d, true, cache, 0)
        | none => .error ("KeyError: data")
      | none => .error ("KeyError: marketplace_stats")
    | .ok false =>
      match normalize_marketplace fs net with
      | .error e => .error e
      | .ok stats =>
        match entry with
        | .obj em =>
          match cache_put_release cache rid
              (.obj (setPairs em ("marketplace_stats")
                (.obj [("fetched_at", .str nowIso), ("data", stats)]))) with
          | .ok cache2 => .ok (stats, false, cache2, 1)
          | .error e => .error e
        | _ => .error ("TypeError: item assignment")

/-- `fetch_release_details_cached(release_id, cache, release_details_ttl)`:
same pattern for the `release_details` field (no 404 is allowed, so the
payload is a `JsonV`). -/
def fetch_release_details_cached (p : String → Option ℚ) (now : ℚ)
    (nowIso : String) (rid : ℕ) (cache : JsonV) (ttl : ℚ) (net : JsonV) :
    Except String (JsonV × Bool × JsonV × ℕ) :=
  match cache_get_release cache rid with
  | .error e => .error e
  | .ok entry =>
    match is_fresh p now entry ("release_details") ttl with
    | .error e => .error e
    | .ok true =>
      match jget entry ("release_details") with
      | some frag =>
        match jget frag ("data") with
        | some d => .ok (d, true, cache, 0)
        | none => .error ("KeyError: data")
      | none => .error ("KeyError: release_details")
    | .ok false =>
      match normalize_release_details net with
      | .error e => .error e
      | .ok details =>
        match entry with
        | .obj em =>
          match cache_put_release cache rid
              (.obj (setPairs em ("release_details")
                (.obj [("fetched_at", .str nowIso), ("data", details)]))) with
          | .ok cache2 => .ok (details, false, cache2, 1)
          | .error e => .error e
        | _ => .error ("TypeError: item assignment")

/-- C5 (amended): normalization of the marketplace payload substitutes the
sentinel fragment when the upstream returns no (or falsy) data; extracts
`num_for_sale` / `blocked_from_sale` verbatim, a missing field becoming
`None`; and extracts the nested lowest price as a float when a lowest-price
object with a numeric value is present, or `None` when `lowest_price` is
absent or null.  (Exception freedom holds only on those shapes; see the
counterexample.) -/
theorem normalize_marketplace_absent_safe :
    (∀ (fs : String → Option ℚ),
      normalize_marketplace fs none = .ok marketplaceSentinel)
    ∧ (∀ (fs : String → Option ℚ) (m : List (String × JsonV)),
      truthy (.obj m) = true →
      (getPairs m ("lowest_price")).getD .null = .null →
      normalize_marketplace fs (some (.obj m))
        = .ok (.obj [("num_for_sale", (getPairs m ("num_for_sale")).getD .null),
            ("blocked_from_sale", (getPairs m ("blocked_from_sale")).getD .null),
            ("lowest_price", .null)]))
    ∧ (∀ (fs : String → Option ℚ) (m lm : List (String × JsonV)) (q : ℚ),
      truthy (.obj m) = true →
      getPairs m ("lowest_price") = some (.obj lm) →
      getPairs lm ("value") = some (.num q) →
      normalize_marketplace fs (some (.obj m))
        = .ok (.obj [("num_for_sale", (getPairs m ("num_for_sale")).getD .null),
            ("blocked_from_sale", (getPairs m ("blocked_from_sale")).getD .null),
            ("lowest_price", .num q)])) := by
  refine ⟨fun fs => rfl, ?_, ?_⟩
  · intro fs m htr hnull
    rw [normalize_marketplace, if_neg (by simp [truthyOpt, htr]), hnull]
  · intro fs m lm q htr hlp hval
    rw [normalize_marketplace, if_neg (by simp [truthyOpt, htr]), hlp]
    simp only [Option.getD_some]
    rw [hval]
    simp only [Option.getD_some]
    rfl

/-- Witness: the amended normalization at concrete payloads — the
sentinel for `None`, absent fields for `{}`-like data with no lowest
price, and float extraction from a nested lowest-price object. -/
theorem normalize_marketplace_absent_safe_witness :
    normalize_marketplace (fun _ => none) none = .ok marketplaceSentinel
    ∧ normalize_marketplace (fun _ => none)
        (some (.obj [("num_for_sale", .num 4)]))
      = .ok (.obj [("num_for_sale", .num 4), ("blocked_from_sale", .null),
          ("lowest_price", .null)])
    ∧ normalize_marketplace (fun _ => none)
        (some (.obj [("num_for_sale", .num 4),
          ("lowest_price", .obj [("value", .num 25), ("currency", .str ("USD"))])]))
      = .ok (.obj [("num_for_sale", .num 4), ("blocked_from_sale", .null),
          ("lowest_price", .num 25)]) :=
  ⟨normalize_marketplace_absent_safe.1 (fun _ => none),
    normalize_marketplace_absent_safe.2.1 (fun _ => none) _ (by rfl) (by rfl),
    normalize_marketplace_absent_safe.2.2 (fun _ => none) _ _ 25 (by rfl)
      (by rfl) (by rfl)⟩

/-- Counterexample to C5 as stated: a payload whose `lowest_price` is
present but an empty object makes `float(lowest.get("value"))` evaluate
`float(None)`, raising `TypeError` — normalization is not exception-free
for every upstream payload. -/
theorem normalize_marketplace_exception_cex :
    normalize_marketplace (fun _ => none)
        (some (.obj [("lowest_price", .obj [])]))
      = .error ("TypeError: float() argument must not be NoneType")
    ∧ ∀ v, normalize_marketplace (fun _ => none)
        (some (.obj [("lowest_price", .obj [])])) ≠ .ok v := by
  have h : normalize_marketplace (fun _ => none)
      (some (.obj [("lowest_price", .obj [])]))
      = .error ("TypeError: float() argument must not be NoneType") := rfl
  refine ⟨h, fun v hv => ?_⟩
  rw [h] at hv
  exact Except.noConfusion hv

theorem cache_get_release_inv (cache : JsonV) (rid : ℕ) (entry : JsonV)
    (h : cache_get_release cache rid = .ok entry) :
    ∃ cm m, cache = .obj cm ∧ getPairs cm ("releases") = some (.obj m) ∧
      entry = (getPairs m (toString rid)).getD (.obj []) := by
  cases cache with
  | obj cm =>
    rw [cache_get_release] at h
    cases h2 : jget (.obj cm) ("releases") with
    | none => rw [h2] at h; exact Except.noConfusion h
    | some v =>
      cases v with
      | obj m =>
        rw [h2] at h
        simp only [Except.ok.injEq] at h
        exact ⟨cm, m, rfl, h2, h.symm⟩
      | null => rw [h2] at h; exact Except.noConfusion h
      | bool b => rw [h2] at h; exact Except.noConfusion h
      | num q => rw [h2] at h; exact Except.noConfusion h
      | str s => rw [h2] at h; exact Except.noConfusion h
      | arr l => rw [h2] at h; exact Except.noConfusion h
  | null => exact Except.noConfusion h
  | bool b => exact Except.noConfusion h
  | num q => exact Except.noConfusion h
  | str s => exact Except.noConfusion h
  | arr l => exact Except.noConfusion h

theorem cache_put_release_ok (cm m : List (String × JsonV)) (rid : ℕ)
    (entry : JsonV) (hrel : getPairs cm ("releases") = some (.obj m)) :
    cache_put_release (.obj cm) rid entry
      = .ok (.obj (setPairs cm ("releases")
          (.obj (setPairs m (toString rid) entry)))) := by
  rw [cache_put_release, hrel]

theorem cache_get_release_after_put (cm m : List (String × JsonV)) (rid : ℕ)
    (entry : JsonV) :
    cache_get_release (.obj (setPairs cm ("releases")
        (.obj (setPairs m (toString rid) entry)))) rid = .ok entry := by
  rw [cache_get_release]
  show (match jget (.obj (setPairs cm ("releases")
      (.obj (setPairs m (toString rid) entry)))) ("releases") with
    | some (.obj m) => Except.ok ((getPairs m (toString rid)).getD (.obj []))
    | some _ => Except.error ("AttributeError: object has no attribute get")
    | none => Except.error ("KeyError: releases")) = Except.ok entry
  rw [jget, getPairs_setPairs_self]
  simp only [getPairs_setPairs_self, Option.getD_some]

/-- C6: a fresh cached fragment is returned as stored, with `hit = true`,
an unchanged cache and zero network calls (for both enrichment fetchers);
a miss returns exactly the normalized upstream payload with `hit = false`
and one network call; and after a miss, any later fresh fetch on the
updated cache returns exactly the same data the miss produced — so hit
and miss data from the same underlying payload are structurally
identical. -/
theorem cached_fetch_hit_and_miss_consistency :
    (∀ (fs p : String → Option ℚ) (now : ℚ) (nowIso : String) (rid : ℕ)
      (cache : JsonV) (ttl : ℚ) (net : Option JsonV) (entry frag d : JsonV),
      cache_get_release cache rid = .ok entry →
      is_fresh p now entry ("marketplace_stats") ttl = .ok true →
      jget entry ("marketplace_stats") = some frag →
      jget frag ("data") = some d →
      fetch_marketplace_stats_cached fs p now nowIso rid cache ttl net
        = .ok (d, true, cache, 0))
    ∧ (∀ (p : String → Option ℚ) (now : ℚ) (nowIso : String) (rid : ℕ)
      (cache : JsonV) (ttl : ℚ) (net : JsonV) (entry frag d : JsonV),
      cache_get_release cache rid = .ok entry →
      is_fresh p now entry ("release_details") ttl = .ok true →
      jget entry ("release_details") = some frag →
      jget frag ("data") = some d →
      fetch_release_details_cached p now nowIso rid cache ttl net
        = .ok (d, true, cache, 0))
    ∧ (∀ (fs p : String → Option ℚ) (now : ℚ) (nowIso : String) (rid : ℕ)
      (cache : JsonV) (ttl : ℚ) (net : Option JsonV)
      (em : List (String × JsonV)) (stats : JsonV),
      cache_get_release cache rid = .ok (.obj em) →
      is_fresh p now (.obj em) ("marketplace_stats") ttl = .ok false →
      normalize_marketplace fs net = .ok stats →
      ∃ cache2, fetch_marketplace_stats_cached fs p now nowIso rid cache ttl net
        = .ok (stats, false, cache2, 1))
    ∧ (∀ (p : String → Option ℚ) (now : ℚ) (nowIso : String) (rid : ℕ)
      (cache : JsonV) (ttl : ℚ) (net : JsonV)
      (em : List (String × JsonV)) (details : JsonV),
      cache_get_release cache rid = .ok (.obj em) →
      is_fresh p now (.obj em) ("release_details") ttl = .ok false →
      normalize_release_details net = .ok details →
      ∃ cache2, fetch_release_details_cached p now nowIso rid cache ttl net
        = .ok (details, false, cache2, 1))
    ∧ (∀ (fs p : String → Option ℚ) (now : ℚ) (nowIso : String) (rid : ℕ)
      (cache : JsonV) (ttl : ℚ) (net : Option JsonV) (d cache2 : JsonV) (n : ℕ),
      fetch_marketplace_stats_cached fs p now nowIso rid cache ttl net
        = .ok (d, false, cache2, n) →
      ∀ (fs1 : String → Option ℚ) (now1 ttl1 : ℚ) (nowIso1 : String)
        (net1 : Option JsonV) (entry2 : JsonV),
      cache_get_release cache2 rid = .ok entry2 →
      is_fresh p now1 entry2 ("marketplace_stats") ttl1 = .ok true →
      fetch_marketplace_stats_cached fs1 p now1 nowIso1 rid cache2 ttl1 net1
        = .ok (d, true, cache2, 0))
    ∧ (∀ (p : String → Option ℚ) (now : ℚ) (nowIso : String) (rid : ℕ)
      (cache : JsonV) (ttl : ℚ) (net : JsonV) (d cache2 : JsonV) (n : ℕ),
      fetch_release_details_cached p now nowIso rid cache ttl net
        = .ok (d, false, cache2, n) →
      ∀ (now1 ttl1 : ℚ) (nowIso1 : String) (net1 : JsonV) (entry2 : JsonV),
      cache_get_release cache2 rid = .ok entry2 →
      is_fresh p now1 entry2 ("release_details") ttl1 = .ok true →
      fetch_release_details_cached p now1 nowIso1 rid cache2 ttl1 net1
        = .ok (d, true, cache2, 0)) := by
  have hitS : ∀ (fs p : String → Option ℚ) (now : ℚ) (nowIso : String)
      (rid : ℕ) (cache : JsonV) (ttl : ℚ) (net : Option JsonV)
      (entry frag d : JsonV),
      cache_get_release cache rid = .ok entry →
      is_fresh p now entry ("marketplace_stats") ttl = .ok true →
      jget entry ("marketplace_stats") = some frag →
      jget frag ("data") = some d →
      fetch_marketplace_stats_cached fs p now nowIso rid cache ttl net
        = .ok (d, true, cache, 0) := by
    intro fs p now nowIso rid cache ttl net entry frag d hga hfr hfrag hdata
    rw [fetch_marketplace_stats_cached, hga]
    simp only [hfr, if_true, hfrag, hdata]
  have hitD : ∀ (p : String → Option ℚ) (now : ℚ) (nowIso : String)
      (rid : ℕ) (cache : JsonV) (ttl : ℚ) (net : JsonV)
      (entry frag d : JsonV),
      cache_get_release cache rid = .ok entry →
      is_fresh p now entry ("release_details") ttl = .ok true →
      jget entry ("release_details") = some frag →
      jget frag ("data") = some d →
      fetch_release_details_cached p now nowIso rid cache ttl net
        = .ok (d, true, cache, 0) := by
    intro p now nowIso rid cache ttl net entry frag d hga hfr hfrag hdata
    rw [fetch_release_details_cached, hga]
    simp only [hfr, if_true, hfrag, hdata]
  have missS : ∀ (fs p : String → Option ℚ) (now : ℚ) (nowIso : String)
      (rid : ℕ) (cache : JsonV) (ttl : ℚ) (net : Option JsonV)
      (em : List (String × JsonV)) (stats : JsonV),
      cache_get_release cache rid = .ok (.obj em) →
      is_fresh p now (.obj em) ("marketplace_stats") ttl = .ok false →
      normalize_marketplace fs net = .ok stats →
      ∃ cache2, fetch_marketplace_stats_cached fs p now nowIso rid cache ttl net
        = .ok (stats, false, cache2, 1) := by
    intro fs p now nowIso rid cache ttl net em stats hga hfr hnorm
    obtain ⟨cm, m, hcache, hrel, _⟩ := cache_get_release_inv cache rid _ hga
    subst hcache
    refine ⟨.obj (setPairs cm ("releases") (.obj (setPairs m (toString rid)
      (.obj (setPairs em ("marketplace_stats")
        (.obj [("fetched_at", .str nowIso), ("data", stats)])))))), ?_⟩
    rw [fetch_marketplace_stats_cached, hga]
    simp only [hfr, Bool.false_eq_true, if_false, hnorm,
      cache_put_release_ok cm m rid _ hrel]
  have missD : ∀ (p : String → Option ℚ) (now : ℚ) (nowIso : String)
      (rid : ℕ) (cache : JsonV) (ttl : ℚ) (net : JsonV)
      (em : List (String × JsonV)) (details : JsonV),
      cache_get_release cache rid = .ok (.obj em) →
      is_fresh p now (.obj em) ("release_details") ttl = .ok false →
      normalize_release_details net = .ok details →
      ∃ cache2, fetch_release_details_cached p now nowIso rid cache ttl net
        = .ok (details, false, cache2, 1) := by
    intro p now nowIso rid cache ttl net em details hga hfr hnorm
    obtain ⟨cm, m, hcache, hrel, _⟩ := cache_get_release_inv cache rid _ hga
    subst hcache
    refine ⟨.obj (setPairs cm ("releases") (.obj (setPairs m (toString rid)
      (.obj (setPairs em ("release_details")
        (.obj [("fetched_at", .str nowIso), ("data", details)])))))), ?_⟩
    rw [fetch_release_details_cached, hga]
    simp only [hfr, Bool.false_eq_true, if_false, hnorm,
      cache_put_release_ok cm m rid _ hrel]
  have consS : ∀ (fs p : String → Option ℚ) (now : ℚ) (nowIso : String)
      (rid : ℕ) (cache : JsonV) (ttl : ℚ) (net : Option JsonV)
      (d cache2 : JsonV) (n : ℕ),
      fetch_marketplace_stats_cached fs p now nowIso rid cache ttl net
        = .ok (d, false, cache2, n) →
      ∀ (fs1 : String → Option ℚ) (now1 ttl1 : ℚ) (nowIso1 : String)
        (net1 : Option JsonV) (entry2 : JsonV),
      cache_get_release cache2 rid = .ok entry2 →
      is_fresh p now1 entry2 ("marketplace_stats") ttl1 = .ok true →
      fetch_marketplace_stats_cached fs1 p now1 nowIso1 rid cache2 ttl1 net1
        = .ok (d, true, cache2, 0) := by
    intro fs p now nowIso rid cache ttl net d cache2 n h1 fs1 now1 ttl1
      nowIso1 net1 entry2 hga2 hfr2
    rw [fetch_marketplace_stats_cached] at h1
    split at h1
    · exact Except.noConfusion h1
    · rename_i entry hga
      split at h1
      · exact Except.noConfusion h1
      · split at h1
        · split at h1
          · simp at h1
          · exact Except.noConfusion h1
        · exact Except.noConfusion h1
      · rename_i hfr
        split at h1
        · exact Except.noConfusion h1
        · rename_i stats hnorm
          split at h1
          · rename_i em
            split at h1
            · rename_i cache2x hput
              simp only [Except.ok.injEq, Prod.mk.injEq, true_and] at h1
              obtain ⟨hd, hc2, _⟩ := h1
              obtain ⟨cm, m, hcache, hrel, _⟩ :=
                cache_get_release_inv cache rid _ hga
              subst hcache
              rw [cache_put_release_ok cm m rid _ hrel] at hput
              simp only [Except.ok.injEq] at hput
              have hget2 : cache_get_release cache2 rid
                  = .ok (.obj (setPairs em ("marketplace_stats")
                    (.obj [("fetched_at", .str nowIso), ("data", stats)]))) := by
                rw [← hc2, ← hput]
                exact cache_get_release_after_put cm m rid _
              have hent2 : entry2 = .obj (setPairs em ("marketplace_stats")
                  (.obj [("fetched_at", .str nowIso), ("data", stats)])) :=
                Except.ok.inj (hga2.symm.trans hget2)
              refine hitS fs1 p now1 nowIso1 rid cache2 ttl1 net1 entry2
                (.obj [("fetched_at", .str nowIso), ("data", stats)]) d
                hga2 hfr2 ?_ ?_
              · rw [hent2, jget, getPairs_setPairs_self]
              · rw [← hd]; rfl
            · exact Except.noConfusion h1
          · exact Except.noConfusion h1
  have consD : ∀ (p : String → Option ℚ) (now : ℚ) (nowIso : String)
      (rid : ℕ) (cache : JsonV) (ttl : ℚ) (net : JsonV)
      (d cache2 : JsonV) (n : ℕ),
      fetch_release_details_cached p now nowIso rid cache ttl net
        = .ok (d, false, cache2, n) →
      ∀ (now1 ttl1 : ℚ) (nowIso1 : String) (net1 : JsonV) (entry2 : JsonV),
      cache_get_release cache2 rid = .ok entry2 →
      is_fresh p now1 entry2 ("release_details") ttl1 = .ok true →
      fetch_release_details_cached p now1 nowIso1 rid cache2 ttl1 net1
        = .ok (d, true, cache2, 0) := by
    intro p now nowIso rid cache ttl net d cache2 n h1 now1 ttl1
      nowIso1 net1 entry2 hga2 hfr2
    rw [fetch_release_details_cached] at h1
    split at h1
    · exact Except.noConfusion h1
    · rename_i entry hga
      split at h1
      · exact Except.noConfusion h1
      · split at h1
        · split at h1
          · simp at h1
          · exact Except.noConfusion h1
        · exact Except.noConfusion h1
      · rename_i hfr
        split at h1
        · exact Except.noConfusion h1
        · rename_i details hnorm
          split at h1
          · rename_i em
            split at h1
            · rename_i cache2x hput
              simp only [Except.ok.injEq, Prod.mk.injEq, true_and] at h1
              obtain ⟨hd, hc2, _⟩ := h1
              obtain ⟨cm, m, hcache, hrel, _⟩ :=
                cache_get_release_inv cache rid _ hga
              subst hcache
              rw [cache_put_release_ok cm m rid _ hrel] at hput
              simp only [Except.ok.injEq] at hput
              have hget2 : cache_get_release cache2 rid
                  = .ok (.obj (setPairs em ("release_details")
                    (.obj [("fetched_at", .str nowIso), ("data", details)]))) := by
                rw [← hc2, ← hput]
                exact cache_get_release_after_put cm m rid _
              have hent2 : entry2 = .obj (setPairs em ("release_details")
                  (.obj [("fetched_at", .str nowIso), ("data", details)])) :=
                Except.ok.inj (hga2.symm.trans hget2)
              refine hitD p now1 nowIso1 rid cache2 ttl1 net1 entry2
                (.obj [("fetched_at", .str nowIso), ("data", details)]) d
                hga2 hfr2 ?_ ?_
              · rw [hent2, jget, getPairs_setPairs_self]
              · rw [← hd]; rfl
            · exact Except.noConfusion h1
          · exact Except.noConfusion h1
  exact ⟨hitS, hitD, missS, missD, consS, consD⟩

/-- Witness: a concrete fresh cache hit returns the stored stats with
`hit = true`, an unchanged cache and zero network calls; a concrete stale
cache miss returns the normalized (sentinel) payload with `hit = false`
and one network call. -/
theorem cached_fetch_hit_and_miss_witness :
    fetch_marketplace_stats_cached (fun _ => none)
        (fun s => if s = ("T1") then some (100 : ℚ) else none) 150 ("ISO") 7
        (.obj [("version", .num 1), ("updated_at", .str ("U")),
          ("releases", .obj [("7", .obj [("marketplace_stats",
            .obj [("fetched_at", .str ("T1")),
              ("data", .obj [("num_for_sale", .num 3),
                ("blocked_from_sale", .bool false),
                ("lowest_price", .null)])])])])])
        100 none
      = .ok (.obj [("num_for_sale", .num 3), ("blocked_from_sale", .bool false),
          ("lowest_price", .null)], true,
          .obj [("version", .num 1), ("updated_at", .str ("U")),
            ("releases", .obj [("7", .obj [("marketplace_stats",
              .obj [("fetched_at", .str ("T1")),
                ("data", .obj [("num_for_sale", .num 3),
                  ("blocked_from_sale", .bool false),
                  ("lowest_price", .null)])])])])], 0)
    ∧ ∃ cache2, fetch_marketplace_stats_cached (fun _ => none)
        (fun _ => none) 150 ("ISO") 7
        (.obj [("version", .num 1), ("updated_at", .str ("U")),
          ("releases", .obj [])]) 100 none
      = .ok (marketplaceSentinel, false, cache2, 1) :=
  ⟨cached_fetch_hit_and_miss_consistency.1 (fun _ => none)
      (fun s => if s = ("T1") then some (100 : ℚ) else none) 150 ("ISO") 7 _
      100 none _ _ _ rfl
      (by simp [is_fresh, jget, getPairs, truthy, parse_iso,
        show toString 7 = ("7") from rfl]; norm_num)
      rfl rfl,
    cached_fetch_hit_and_miss_consistency.2.2.1 (fun _ => none) (fun _ => none)
      150 ("ISO") 7 _ 100 none [] marketplaceSentinel rfl rfl rfl⟩

/-!
## Pipeline ordering (src/app.py lines 505-509)

`out.sort_values(["liquidity_score", "want_count", "num_for_sale"],
ascending=[False, False, False])` followed by
`out.insert(0, "Sell Order", range(1, len(out) + 1))`.  A merged record is
modelled by its three sort keys plus its identifier (exact rational values
standing for the float columns; rows with NaN keys cannot arise from
records with numeric fields, which is the domain this model covers). -/

/-- The sort-relevant columns of one output row. -/
structure OutRow where
  release_id : ℕ
  liquidity_score : ℚ
  want_count : ℚ
  num_for_sale : ℚ

/-- The comparator realised by the three-key descending `sort_values`:
`a` may precede `b` iff `a` is lexicographically `≥ b` on
`(liquidity_score, want_count, num_for_sale)` all taken descending. -/
def rowLE (a b : OutRow) : Bool :=
  if a.liquidity_score = b.liquidity_score then
    if a.want_count = b.want_count then
      decide (b.num_for_sale ≤ a.num_for_sale)
    else decide (b.want_count < a.want_count)
  else decide (b.liquidity_score < a.liquidity_score)

/-- The proposition "`a` sorts no later than `b`": strictly greater score,
or equal score and strictly greater want count, or both equal and
no smaller supply. -/
def descLex (a b : OutRow) : Prop :=
  b.liquidity_score < a.liquidity_score
    ∨ (a.liquidity_score = b.liquidity_score
      ∧ (b.want_count < a.want_count
        ∨ (a.want_count = b.want_count ∧ b.num_for_sale ≤ a.num_for_sale)))

theorem rowLE_iff (a b : OutRow) : rowLE a b = true ↔ descLex a b := by
  unfold rowLE descLex
  split_ifs with h1 h2
  · simp [h1, h2, lt_irrefl]
  · simp [h1, h2, lt_irrefl]
  · simp [h1]

theorem rowLE_trans (a b c : OutRow) (hab : rowLE a b = true)
    (hbc : rowLE b c = true) : rowLE a c = true := by
  rw [rowLE_iff] at hab hbc ⊢
  rcases hab with h | ⟨e1, hab2⟩
  · rcases hbc with h' | ⟨e2, _⟩
    · exact Or.inl (h'.trans h)
    · exact Or.inl (by rw [← e2]; exact h)
  · rcases hbc with h' | ⟨e2, hbc2⟩
    · exact Or.inl (by rw [e1]; exact h')
    · refine Or.inr ⟨e1.trans e2, ?_⟩
      rcases hab2 with hw | ⟨ew1, hn1⟩
      · rcases hbc2 with hw' | ⟨ew2, _⟩
        · exact Or.inl (hw'.trans hw)
        · exact Or.inl (by rw [← ew2]; exact hw)
      · rcases hbc2 with hw' | ⟨ew2, hn2⟩
        · exact Or.inl (by rw [ew1]; exact hw')
        · exact Or.inr ⟨ew1.trans ew2, hn2.trans hn1⟩

theorem rowLE_total (a b : OutRow) : (rowLE a b || rowLE b a) = true := by
  rw [Bool.or_eq_true, rowLE_iff, rowLE_iff]
  rcases lt_trichotomy a.liquidity_score b.liquidity_score with h | h | h
  · exact Or.inr (Or.inl h)
  · rcases lt_trichotomy a.want_count b.want_count with h2 | h2 | h2
    · exact Or.inr (Or.inr ⟨h.symm, Or.inl h2⟩)
    · rcases le_total b.num_for_sale a.num_for_sale with h3 | h3
      · exact Or.inl (Or.inr ⟨h, Or.inr ⟨h2, h3⟩⟩)
      · exact Or.inr (Or.inr ⟨h.symm, Or.inr ⟨h2.symm, h3⟩⟩)
    · exact Or.inl (Or.inr ⟨h, Or.inl h2⟩)
  · exact Or.inl (Or.inl h)

/-- The sort step of `main`. -/
def sort_records (rows : List OutRow) : List OutRow := rows.mergeSort rowLE

/-- The `Sell Order` step of `main`: pair each sorted row with its 1-based
position. -/
def assign_sell_order (rows : List OutRow) : List (ℕ × OutRow) :=
  (sort_records rows).enum.map (fun p => (p.1 + 1, p.2))

/-- C7: for every set of merged records the output is ordered by
liquidity score descending with ties broken by want count then supply,
both descending; it is a permutation of the input; and the `Sell Order`
column is exactly `1..n` over the sorted sequence. -/
theorem pipeline_sort_and_rank (rows : List OutRow) :
    (sort_records rows).Pairwise descLex
    ∧ (sort_records rows).Perm rows
    ∧ (assign_sell_order rows).map Prod.fst = List.range' 1 rows.length
    ∧ (assign_sell_order rows).map Prod.snd = sort_records rows := by
  refine ⟨?_, List.mergeSort_perm rows rowLE, ?_, ?_⟩
  · have h := List.sorted_mergeSort rowLE_trans rowLE_total rows
    exact h.imp (fun hab => (rowLE_iff _ _).mp hab)
  · rw [assign_sell_order, List.map_map]
    have h1 : (Prod.fst ∘ fun p : ℕ × OutRow => (p.1 + 1, p.2))
        = (fun n => n + 1) ∘ Prod.fst := rfl
    rw [h1, ← List.map_map, List.enum_map_fst, List.range'_eq_map_range]
    have hlen : (sort_records rows).length = rows.length :=
      (List.mergeSort_perm rows rowLE).length_eq
    rw [hlen]
    have h2 : (fun n : ℕ => n + 1) = (fun x : ℕ => 1 + x) := by
      funext x
      omega
    rw [h2]
  · rw [assign_sell_order, List.map_map]
    have h1 : (Prod.snd ∘ fun p : ℕ × OutRow => (p.1 + 1, p.2))
        = (Prod.snd : ℕ × OutRow → OutRow) := rfl
    rw [h1, List.enum_map_snd]

end DiscogsLiquidity
